import Mathlib

/-!
# A shallow embedding of the `lox` tree-walking interpreter

This file embeds, in Lean, the scanner, parser, environment and evaluator of
the `lox` crate (`src/lox/src/{scanner,token,expr,parser,environment,
interpreter}.rs`) and proves properties of the embedded code.

Modelling conventions, chosen once and used throughout:

* Rust `f64` is modelled as `ℚ`.  Every numeric literal and arithmetic
  operation exercised by a theorem below stays within the integers, where
  `f64` arithmetic is exact, so no rounding behaviour is lost.
* Rust `HashMap<String, Value>` is modelled as an association list with
  replace-on-insert semantics; the map is only ever used through
  `contains_key`, `insert` and `get`, none of which observe iteration order.
* Rust methods that mutate `&mut self` are modelled as functions from the
  old state to (result, new state); an early `return Err(..)` keeps the
  state mutated so far, exactly as the Rust code does.
* Loops and recursive descent are modelled with an explicit fuel parameter
  (`Nat`); exhausting fuel yields `none`.  Fuel is an artefact of the
  embedding: concrete theorems instantiate it generously, and universally
  quantified theorems quantify over it.
* Debug / display formatting of numbers: Rust formats an integral `f64`
  without a fractional part under `{:}` and with `.0` under `{:?}`.  The
  embedding reproduces this for integral values (the only values any
  theorem below prints); non-integral rationals take an unexercised
  fallback rendering.
* `scanner.rs` declares its own `Token`/`TokenType`/`Literal` that are
  structurally a subset of the ones in `token.rs` (the scanner never
  produces `Colon`/`QuestionMark`, and its `Literal` has only the `Number`
  and `String` variants).  The embedding merges them into the `token.rs`
  types, which is how `main.rs` pipes the scanner output into the parser.
* The string messages attached to parser errors are kept, with the ASCII
  quote characters of the original messages dropped.
-/

/-! ## Token model (`token.rs`) -/

/-- `TokenType` from `token.rs` (the superset used by the parser). -/
inductive TokenType where
  | LeftParen
  | RightParen
  | LeftBrace
  | RightBrace
  | Comma
  | Dot
  | Minus
  | Plus
  | Semicolon
  | Colon
  | Slash
  | Star
  | QuestionMark
  | Bang
  | BangEqual
  | Equal
  | EqualEqual
  | Greater
  | GreaterEqual
  | Less
  | LessEqual
  | Identifier
  | String
  | Number
  | And
  | Class
  | Else
  | False
  | Fun
  | For
  | If
  | Nil
  | Or
  | Print
  | Return
  | Super
  | This
  | True
  | Var
  | While
  | Eof
  deriving DecidableEq

/-- `Literal` from `token.rs`: the syntactic constant stored in a token. -/
inductive Literal where
  | Number (n : ℚ)
  | String (s : String)
  | True
  | False
  | Nil
  deriving DecidableEq

/-- `Token` from `token.rs`. -/
structure Token where
  token_type : TokenType
  lexeme : String
  literal : Option Literal
  line : Int
  deriving DecidableEq

/-- `impl From<&TokenType> for Literal` from `token.rs`: `True`/`False`/`Nil`
map to the corresponding literal; every other token type falls through to
`Literal::Nil` (the Rust arm also prints a complaint to stderr, a side
effect not modelled). -/
def literalOfTokenType : TokenType → Literal
  | TokenType.True => Literal.True
  | TokenType.False => Literal.False
  | TokenType.Nil => Literal.Nil
  | _ => Literal.Nil

/-! ## Scanner (`scanner.rs`) -/

/-- `scanner::Error`.  `ParseError` wraps Rust's `ParseFloatError`, whose
payload the embedding does not need. -/
inductive ScanError where
  | UnexceptedChar (c : Char)
  | UnterminatedString (line : Int)
  | ParseError
  deriving DecidableEq

/-- The `Scanner` struct: `source` is the decoded character sequence (the
sources in every theorem are ASCII, where Rust's byte indices and char
indices coincide), plus the two-cursor window, line counter, and the
accumulated tokens and errors. -/
structure Scanner where
  source : List Char
  tokens : List Token
  start : Nat
  current : Nat
  line : Int
  errors : List ScanError

/-- `Scanner::new`. -/
def Scanner.new (src : String) : Scanner :=
  { source := src.toList, tokens := [], start := 0, current := 0, line := 1,
    errors := [] }

/-- `Scanner::is_at_end`. -/
def Scanner.is_at_end (s : Scanner) : Bool :=
  s.current ≥ s.source.length

/-- `Scanner::peek` (`'\0'` at end of input). -/
def Scanner.peekCh (s : Scanner) : Char :=
  if s.is_at_end then '\x00' else s.source.getD s.current '\x00'

/-- `Scanner::peek_next`. -/
def Scanner.peek_next (s : Scanner) : Char :=
  if s.current + 1 ≥ s.source.length then '\x00'
  else s.source.getD (s.current + 1) '\x00'

/-- `Scanner::advance`: read the char under the cursor and step past it.
The Rust code panics when called out of bounds; all call sites are guarded,
and the embedding reads `'\0'` in that unreachable case. -/
def Scanner.advanceCh (s : Scanner) : Char × Scanner :=
  (s.source.getD s.current '\x00', { s with current := s.current + 1 })

/-- `Scanner::match_char`. -/
def Scanner.match_char (s : Scanner) (expected : Char) : Bool × Scanner :=
  if s.is_at_end then (false, s)
  else if s.source.getD s.current '\x00' ≠ expected then (false, s)
  else (true, { s with current := s.current + 1 })

/-- `Scanner::is_digit`. -/
def Scanner.is_digit (c : Char) : Bool :=
  c ≥ '0' && c ≤ '9'

/-- `Scanner::is_alpha` (`is_ascii_alphabetic() || c == '_'`). -/
def Scanner.is_alpha (c : Char) : Bool :=
  (c ≥ 'A' && c ≤ 'Z') || (c ≥ 'a' && c ≤ 'z') || c = '_'

/-- `Scanner::is_alphanumeric`. -/
def Scanner.is_alphanumeric (c : Char) : Bool :=
  Scanner.is_alpha c || Scanner.is_digit c

/-- `&self.source[a..b]` as a string (ASCII sources, see `Scanner`). -/
def sliceStr (src : List Char) (a b : Nat) : String :=
  String.mk ((src.drop a).take (b - a))

/-- `Scanner::get_token`. -/
def Scanner.get_token (s : Scanner) (tt : TokenType) (lit : Option Literal) :
    Token :=
  { token_type := tt, lexeme := sliceStr s.source s.start s.current,
    literal := lit, line := s.line }

/-- `Scanner::add_token`. -/
def Scanner.add_token (s : Scanner) (t : Token) : Scanner :=
  { s with tokens := s.tokens ++ [t] }

/-- `Scanner::get_and_add_token`. -/
def Scanner.get_and_add_token (s : Scanner) (tt : TokenType) : Scanner :=
  s.add_token (s.get_token tt none)

/-- The keyword table (`KEYWORDS` in `scanner.rs`). -/
def keywords : String → Option TokenType
  | "and" => some TokenType.And
  | "class" => some TokenType.Class
  | "else" => some TokenType.Else
  | "false" => some TokenType.False
  | "for" => some TokenType.For
  | "fun" => some TokenType.Fun
  | "if" => some TokenType.If
  | "nil" => some TokenType.Nil
  | "or" => some TokenType.Or
  | "print" => some TokenType.Print
  | "return" => some TokenType.Return
  | "super" => some TokenType.Super
  | "this" => some TokenType.This
  | "true" => some TokenType.True
  | "var" => some TokenType.Var
  | "while" => some TokenType.While
  | _ => none

/-- Digit run to `Nat` (helper for the float parse below). -/
def digitsToNat (l : List Char) : Nat :=
  l.foldl (fun a c => a * 10 + (c.toNat - 48)) 0

/-- `str::parse::<f64>` restricted to the slices the scanner's `number`
can produce (a digit run with at most one interior decimal point).  On
such in-range decimal strings the `f64` parse is exact, and this function
returns that exact value; any other shape yields `none` (the Rust parse
error). -/
def parseDecimalRat (l : List Char) : Option ℚ :=
  if l = [] then none
  else
    let ip := l.takeWhile (fun c => c ≠ '.')
    let rest := l.dropWhile (fun c => c ≠ '.')
    if ip.all Scanner.is_digit = false then none
    else
      match rest with
      | [] => some ((digitsToNat ip : Nat) : ℚ)
      | c :: fp =>
        if c = '.' ∧ fp ≠ [] ∧ fp.all Scanner.is_digit then
          some (((digitsToNat ip : Nat) : ℚ) +
            ((digitsToNat fp : Nat) : ℚ) / ((10 : ℚ) ^ fp.length))
        else none

/-- The comment loop in `scan_token` (`while peek() != '\n' && !is_at_end()`).
Fuel-indexed; call sites pass enough fuel for the loop to run to its guard. -/
def Scanner.commentLoop : Nat → Scanner → Scanner
  | 0, s => s
  | n + 1, s =>
    if s.peekCh ≠ '\n' ∧ ¬s.is_at_end then
      Scanner.commentLoop n (s.advanceCh).2
    else s

/-- The loop of `Scanner::string`.  NOTE the faithful inversion: the source
increments `line` when the char under the cursor is NOT a newline
(`if self.peek() != '\n' { self.line = self.line + 1; }`). -/
def Scanner.stringLoop : Nat → Scanner → Scanner
  | 0, s => s
  | n + 1, s =>
    if s.peekCh ≠ '"' ∧ ¬s.is_at_end then
      let s1 := if s.peekCh ≠ '\n' then { s with line := s.line + 1 } else s
      Scanner.stringLoop n (s1.advanceCh).2
    else s

/-- `Scanner::string`: consume up to the closing quote; end of input first
is an unterminated-string error.  The stored literal is
`self.source[self.start..self.current]`, which still carries the opening
and closing quote characters. -/
def Scanner.string (s : Scanner) : Except ScanError Token × Scanner :=
  let s1 := Scanner.stringLoop (s.source.length - s.current + 1) s
  if s1.is_at_end then (Except.error (ScanError.UnterminatedString s1.line), s1)
  else
    let s2 := (s1.advanceCh).2
    let value := sliceStr s2.source s2.start s2.current
    (Except.ok (s2.get_token TokenType.String (some (Literal.String value))), s2)

/-- The digit loops of `Scanner::number`. -/
def Scanner.digitLoop : Nat → Scanner → Scanner
  | 0, s => s
  | n + 1, s =>
    if Scanner.is_digit s.peekCh then Scanner.digitLoop n (s.advanceCh).2
    else s

/-- `Scanner::number`. -/
def Scanner.number (s : Scanner) : Except ScanError Token × Scanner :=
  let s1 := Scanner.digitLoop (s.source.length - s.current + 1) s
  let s2 :=
    if s1.peekCh = '.' ∧ Scanner.is_digit s1.peek_next then
      Scanner.digitLoop (s1.source.length - s1.current) (s1.advanceCh).2
    else s1
  match parseDecimalRat ((s2.source.drop s2.start).take (s2.current - s2.start)) with
  | none => (Except.error ScanError.ParseError, s2)
  | some q =>
    (Except.ok (s2.get_token TokenType.Number (some (Literal.Number q))), s2)

/-- The alphanumeric loop of `Scanner::identifier`. -/
def Scanner.identLoop : Nat → Scanner → Scanner
  | 0, s => s
  | n + 1, s =>
    if Scanner.is_alphanumeric s.peekCh then Scanner.identLoop n (s.advanceCh).2
    else s

/-- `Scanner::identifier`: scan the lexeme, then the keyword table decides
between a keyword token and a generic identifier token. -/
def Scanner.identifier (s : Scanner) : Token × Scanner :=
  let s1 := Scanner.identLoop (s.source.length - s.current + 1) s
  let value := sliceStr s1.source s1.start s1.current
  match keywords value with
  | some tt => (s1.get_token tt none, s1)
  | none => (s1.get_token TokenType.Identifier none, s1)

/-- `Scanner::scan_token`: classify one lexeme starting at the cursor. -/
def Scanner.scan_token (s : Scanner) : Except ScanError Unit × Scanner :=
  let (c, s1) := s.advanceCh
  if c = '(' then (Except.ok (), s1.get_and_add_token TokenType.LeftParen)
  else if c = ')' then (Except.ok (), s1.get_and_add_token TokenType.RightParen)
  else if c = '\x7b' then (Except.ok (), s1.get_and_add_token TokenType.LeftBrace)
  else if c = '\x7d' then (Except.ok (), s1.get_and_add_token TokenType.RightBrace)
  else if c = ',' then (Except.ok (), s1.get_and_add_token TokenType.Comma)
  else if c = '.' then (Except.ok (), s1.get_and_add_token TokenType.Dot)
  else if c = '-' then (Except.ok (), s1.get_and_add_token TokenType.Minus)
  else if c = '+' then (Except.ok (), s1.get_and_add_token TokenType.Plus)
  else if c = ';' then (Except.ok (), s1.get_and_add_token TokenType.Semicolon)
  else if c = '*' then (Except.ok (), s1.get_and_add_token TokenType.Star)
  else if c = '!' then
    let (m, s2) := s1.match_char '='
    (Except.ok (), s2.get_and_add_token
      (if m then TokenType.BangEqual else TokenType.Bang))
  else if c = '=' then
    let (m, s2) := s1.match_char '='
    (Except.ok (), s2.get_and_add_token
      (if m then TokenType.EqualEqual else TokenType.Equal))
  else if c = '<' then
    let (m, s2) := s1.match_char '='
    (Except.ok (), s2.get_and_add_token
      (if m then TokenType.LessEqual else TokenType.Less))
  else if c = '>' then
    let (m, s2) := s1.match_char '='
    (Except.ok (), s2.get_and_add_token
      (if m then TokenType.GreaterEqual else TokenType.Greater))
  else if c = '/' then
    let (m, s2) := s1.match_char '/'
    if m then
      (Except.ok (), Scanner.commentLoop (s2.source.length - s2.current + 1) s2)
    else (Except.ok (), s2.get_and_add_token TokenType.Slash)
  else if c = ' ' ∨ c = '\x0d' ∨ c = '\t' then (Except.ok (), s1)
  else if c = '\n' then (Except.ok (), { s1 with line := s1.line + 1 })
  else if c = '"' then
    match s1.string with
    | (Except.ok t, s2) => (Except.ok (), s2.add_token t)
    | (Except.error e, s2) => (Except.error e, s2)
  else if Scanner.is_digit c then
    match s1.number with
    | (Except.ok t, s2) => (Except.ok (), s2.add_token t)
    | (Except.error e, s2) => (Except.error e, s2)
  else if Scanner.is_alpha c then
    let (t, s2) := s1.identifier
    (Except.ok (), s2.add_token t)
  else (Except.error (ScanError.UnexceptedChar c), s1)

/-- The scan loop of `Scanner::scan_tokens`: reset `start`, scan one token,
accumulate any error, repeat until end of input. -/
def Scanner.scanLoop : Nat → Scanner → Scanner
  | 0, s => s
  | n + 1, s =>
    if s.is_at_end then s
    else
      let s1 := { s with start := s.current }
      match s1.scan_token with
      | (Except.ok (), s2) => Scanner.scanLoop n s2
      | (Except.error e, s2) =>
        Scanner.scanLoop n { s2 with errors := s2.errors ++ [e] }

/-- `Scanner::scan_tokens`: run the scan loop, append the `Eof` token (with
line 0, as in the source), and return all tokens iff no error accumulated. -/
def Scanner.scan_tokens (s : Scanner) :
    Except (List ScanError) (List Token) × Scanner :=
  let s1 := Scanner.scanLoop (s.source.length + 1) s
  let s2 := s1.add_token { token_type := TokenType.Eof, lexeme := "",
                           literal := none, line := 0 }
  if s2.errors ≠ [] then (Except.error s2.errors, s2)
  else (Except.ok s2.tokens, s2)

/-! ## Syntax trees (`expr.rs`) -/

/-- `Expr` from `expr.rs`.  `BinaryOperator`, `UnaryOperator` and `Name` are
type aliases for `Token` in the source. -/
inductive Expr where
  | Assign (name : Token) (value : Expr)
  | Binary (left : Expr) (op : Token) (right : Expr)
  | Grouping (e : Expr)
  | Literal (l : Literal)
  | Logical (left : Expr) (operator : Token) (right : Expr)
  | Unary (op : Token) (e : Expr)
  | Variable (name : Token)
  | Condition (cond : Expr) (inner_true : Expr) (inner_false : Expr)
  deriving DecidableEq

/-- `Stmt` from `expr.rs`. -/
inductive Stmt where
  | Expression (e : Expr)
  | If (condition : Expr) (then_branch : Stmt) (else_branch : Option Stmt)
  | Print (e : Expr)
  | Var (name : Token) (initializer : Option Expr)
  | While (condition : Expr) (body : Stmt)
  | Block (stmts : List Stmt)

/-! ### Display / debug rendering

Rust renders an integral `f64` as its integer digits under `{}` and with a
trailing `.0` under `{:?}`.  The theorems below only ever render integral
numbers; non-integral rationals take the `toString` fallback. -/

/-- `{}` of an `f64`, restricted as described above. -/
def ratDisplay (q : ℚ) : String :=
  if q.den = 1 then toString q.num else toString q

/-- `{:?}` of an `f64`, restricted as described above. -/
def ratDebug (q : ℚ) : String :=
  if q.den = 1 then toString q.num ++ ".0" else toString q

/-- Rust `{:?}` of a string: quoted (escaping restricted to the characters
that can occur in the sources used here). -/
def rustDebugStr (s : String) : String :=
  "\"" ++ String.join (s.toList.map (fun c =>
    if c = '"' then "\\\"" else if c = '\\' then "\\\\"
    else if c = '\n' then "\\n" else String.mk [c])) ++ "\""

/-- Rust `{:?}` of a `TokenType` (its constructor name). -/
def tokenTypeDebug : TokenType → String
  | TokenType.LeftParen => "LeftParen"
  | TokenType.RightParen => "RightParen"
  | TokenType.LeftBrace => "LeftBrace"
  | TokenType.RightBrace => "RightBrace"
  | TokenType.Comma => "Comma"
  | TokenType.Dot => "Dot"
  | TokenType.Minus => "Minus"
  | TokenType.Plus => "Plus"
  | TokenType.Semicolon => "Semicolon"
  | TokenType.Colon => "Colon"
  | TokenType.Slash => "Slash"
  | TokenType.Star => "Star"
  | TokenType.QuestionMark => "QuestionMark"
  | TokenType.Bang => "Bang"
  | TokenType.BangEqual => "BangEqual"
  | TokenType.Equal => "Equal"
  | TokenType.EqualEqual => "EqualEqual"
  | TokenType.Greater => "Greater"
  | TokenType.GreaterEqual => "GreaterEqual"
  | TokenType.Less => "Less"
  | TokenType.LessEqual => "LessEqual"
  | TokenType.Identifier => "Identifier"
  | TokenType.String => "String"
  | TokenType.Number => "Number"
  | TokenType.And => "And"
  | TokenType.Class => "Class"
  | TokenType.Else => "Else"
  | TokenType.False => "False"
  | TokenType.Fun => "Fun"
  | TokenType.For => "For"
  | TokenType.If => "If"
  | TokenType.Nil => "Nil"
  | TokenType.Or => "Or"
  | TokenType.Print => "Print"
  | TokenType.Return => "Return"
  | TokenType.Super => "Super"
  | TokenType.This => "This"
  | TokenType.True => "True"
  | TokenType.Var => "Var"
  | TokenType.While => "While"
  | TokenType.Eof => "Eof"

/-- Rust `{:?}` of a `Literal`. -/
def literalDebug : Literal → String
  | Literal.Number q => "Number(" ++ ratDebug q ++ ")"
  | Literal.String s => "String(" ++ rustDebugStr s ++ ")"
  | Literal.True => "True"
  | Literal.False => "False"
  | Literal.Nil => "Nil"

/-- `impl Display for Literal` in `token.rs`. -/
def literalDisplay : Literal → String
  | Literal.Number q => ratDisplay q
  | Literal.String s => s
  | Literal.True => "true"
  | Literal.False => "false"
  | Literal.Nil => "nil"

/-- `impl Display for Token` in `token.rs`
(`"{:?} {:?} {:?}"` of type, lexeme, literal). -/
def tokenDisplay (t : Token) : String :=
  tokenTypeDebug t.token_type ++ " " ++ rustDebugStr t.lexeme ++ " " ++
    (match t.literal with
     | none => "None"
     | some l => "Some(" ++ literalDebug l ++ ")")

/-- `AstPrinter::parenthesize`, taking the already-rendered children
(the Rust method renders them itself through `visit_expr`). -/
def parenthesize (name : String) (parts : List String) : String :=
  "(" ++ name ++ String.join (parts.map (fun p => " " ++ p)) ++ ")"

/-- `AstPrinter`'s `visit_expr`. -/
def astVisitExpr : Expr → String
  | Expr.Literal l => literalDisplay l
  | Expr.Binary lhs op rhs =>
    parenthesize op.lexeme [astVisitExpr lhs, astVisitExpr rhs]
  | Expr.Grouping e => parenthesize "group" [astVisitExpr e]
  | Expr.Unary op rhs => parenthesize op.lexeme [astVisitExpr rhs]
  | Expr.Condition c t f =>
    parenthesize "cond" [astVisitExpr c, astVisitExpr t, astVisitExpr f]
  | Expr.Variable name => "(var " ++ tokenDisplay name ++ ")"
  | Expr.Assign name e =>
    "(assign " ++ parenthesize name.lexeme [astVisitExpr e] ++ ")"
  | Expr.Logical l op r =>
    "(" ++ tokenTypeDebug op.token_type ++ " (left " ++ astVisitExpr l ++
      ") (right " ++ astVisitExpr r ++ "))"

/-! ## Parser (`parser.rs`) -/

/-- `parser::Error`.  Message strings keep the source wording with its
ASCII quote characters dropped; `UnexpectedToken`'s second field is the
value the source passes, which is the token cursor `self.current`. -/
inductive PError where
  | OutOfBounds (i : Int)
  | EmptyLiteral (t : Token)
  | UnexpectedToken (t : Token) (pos : Int)
  | MismatchedToken (line : Int) (expected : TokenType) (actual : TokenType)
      (message : String)
  | SyncBoundaryNotFound
  | InvalidAssignmentTarget (t : Token)
  deriving DecidableEq

/-- The `Parser` struct: token list and `i32` cursor. -/
structure PState where
  tokens : List Token
  current : Int
  deriving DecidableEq

/-- `self.tokens.get(i as usize)`: a negative `i32` wraps to a huge `usize`
under `as`, so it indexes out of bounds. -/
def tokGet (l : List Token) (i : Int) : Option Token :=
  if i < 0 then none else l.get? i.toNat

/-- `Parser::peek`. -/
def Parser.peek (st : PState) : Except PError Token :=
  match tokGet st.tokens st.current with
  | some t => Except.ok t
  | none => Except.error (PError.OutOfBounds st.current)

/-- `Parser::previous`. -/
def Parser.previous (st : PState) : Except PError Token :=
  match tokGet st.tokens (st.current - 1) with
  | some t => Except.ok t
  | none => Except.error (PError.OutOfBounds (st.current - 1))

/-- `Parser::is_at_end` (a failed `peek` counts as the end). -/
def Parser.is_at_end (st : PState) : Bool :=
  match Parser.peek st with
  | Except.ok t => t.token_type = TokenType.Eof
  | Except.error _ => true

/-- `Parser::check`. -/
def Parser.check (tt : TokenType) (st : PState) : Bool :=
  if Parser.is_at_end st then false
  else match Parser.peek st with
    | Except.error _ => false
    | Except.ok t => t.token_type = tt

/-- `Parser::advance` (state part; the `&Token` it returns is only ever
used by `consume`, which is modelled through `previous` below). -/
def Parser.advance (st : PState) : PState :=
  if ¬Parser.is_at_end st then { st with current := st.current + 1 } else st

/-- `Parser::match_type`: consume the token iff its kind matches. -/
def Parser.match_type (tt : TokenType) (st : PState) : Bool × PState :=
  if Parser.check tt st then (true, Parser.advance st) else (false, st)

/-- `Parser::match_types`: first matching kind wins and is consumed. -/
def Parser.match_types : List TokenType → PState → Bool × PState
  | [], st => (false, st)
  | tt :: rest, st =>
    if Parser.check tt st then (true, Parser.advance st)
    else Parser.match_types rest st

/-- `Parser::consume`: advance past an expected token kind or report a
mismatch.  The `unwrap` of `previous` after a successful `check` cannot
fail; the embedding lets its (unreachable) failure propagate as
`OutOfBounds`. -/
def Parser.consume (tt : TokenType) (msg : String) (st : PState) :
    Except PError Token × PState :=
  if Parser.check tt st then
    let st1 := Parser.advance st
    match Parser.previous st1 with
    | Except.ok t => (Except.ok t, st1)
    | Except.error e => (Except.error e, st1)
  else
    match Parser.peek st with
    | Except.error e => (Except.error e, st)
    | Except.ok actual =>
      (Except.error (PError.MismatchedToken actual.line tt actual.token_type
        msg), st)

/-- The loop of `Parser::synchronize`; leaving the loop at end of input
falls through to the boundary-not-found error. -/
def Parser.syncLoop : Nat → PState → Except PError Unit × PState
  | 0, st => (Except.error PError.SyncBoundaryNotFound, st)
  | n + 1, st =>
    if Parser.is_at_end st then (Except.error PError.SyncBoundaryNotFound, st)
    else match Parser.previous st with
      | Except.error e => (Except.error e, st)
      | Except.ok p =>
        if p.token_type = TokenType.Semicolon then (Except.ok (), st)
        else match Parser.peek st with
          | Except.error e => (Except.error e, st)
          | Except.ok t =>
            if t.token_type = TokenType.Class ∨ t.token_type = TokenType.Fun ∨
                t.token_type = TokenType.Var ∨ t.token_type = TokenType.For ∨
                t.token_type = TokenType.If ∨ t.token_type = TokenType.While ∨
                t.token_type = TokenType.Print ∨
                t.token_type = TokenType.Return then
              (Except.ok (), st)
            else Parser.syncLoop n (Parser.advance st)

/-- `Parser::synchronize`: advance once, then discard tokens until just
past a semicolon or just before a statement keyword.  Each iteration
advances the cursor, so `tokens.length + 2` fuel always reaches the
source's loop exit. -/
def Parser.synchronize (st : PState) : Except PError Unit × PState :=
  Parser.syncLoop (st.tokens.length + 2) (Parser.advance st)

/-- The parser monad of the embedding: a state transformer over the token
cursor that carries a `parser::Error` on the error path (with the state
mutated so far, as in Rust) and `none` on fuel exhaustion. -/
abbrev PM (α : Type) : Type :=
  PState → Option (Except PError α × PState)

/-- Monadic return for `PM`. -/
def PM.pureP {α : Type} (a : α) : PM α := fun st => some (Except.ok a, st)

/-- Monadic bind for `PM`: Rust's `?` — an `Err` short-circuits but keeps
the mutated state. -/
def PM.bindP {α β : Type} (x : PM α) (f : α → PM β) : PM β := fun st =>
  match x st with
  | none => none
  | some (Except.error e, st1) => some (Except.error e, st1)
  | some (Except.ok a, st1) => f a st1

instance : Monad PM where
  pure := PM.pureP
  bind := PM.bindP

/-- Fuel exhaustion. -/
def PM.noFuel {α : Type} : PM α := fun _ => none

/-- `return Err(e)`. -/
def PM.throwP {α : Type} (e : PError) : PM α := fun st =>
  some (Except.error e, st)

/-- Lift a state-mutating helper into `PM`. -/
def PM.ofState {α : Type} (f : PState → α × PState) : PM α := fun st =>
  let (a, st1) := f st
  some (Except.ok a, st1)

/-- Lift a fallible state-mutating helper into `PM`. -/
def PM.ofExc {α : Type} (f : PState → Except PError α × PState) : PM α :=
  fun st => some (f st)

/-- Lift a read-only helper into `PM`. -/
def PM.readP {α : Type} (f : PState → α) : PM α := fun st =>
  some (Except.ok (f st), st)

/-- `self.match_type(..)` in monadic position. -/
def mtype (tt : TokenType) : PM Bool := PM.ofState (Parser.match_type tt)

/-- `self.match_types(..)` in monadic position. -/
def mtypes (l : List TokenType) : PM Bool := PM.ofState (Parser.match_types l)

/-- `self.consume(..)?` in monadic position. -/
def consumeM (tt : TokenType) (msg : String) : PM Token :=
  PM.ofExc (Parser.consume tt msg)

/-- `self.check(..)` in monadic position. -/
def checkM (tt : TokenType) : PM Bool := PM.readP (Parser.check tt)

/-- `self.previous()?.clone()` in monadic position. -/
def previousM : PM Token := PM.ofExc (fun st => (Parser.previous st, st))

/-- `self.peek()?.clone()` in monadic position. -/
def peekM : PM Token := PM.ofExc (fun st => (Parser.peek st, st))

mutual

/-- `Parser::declaration` (`varDecl | statement`). -/
def Parser.declaration : Nat → PM Stmt
  | 0 => PM.noFuel
  | n + 1 => do
    if ← mtype TokenType.Var then Parser.var_declaration n
    else Parser.statement n

/-- `Parser::var_declaration`
(`"var" IDENTIFIER ( "=" expression )? ";"`). -/
def Parser.var_declaration : Nat → PM Stmt
  | 0 => PM.noFuel
  | n + 1 => do
    let name ← consumeM TokenType.Identifier "Expect variable name."
    let hasEq ← mtype TokenType.Equal
    let initializer ←
      if hasEq then do
        let e ← Parser.expression n
        pure (some e)
      else pure none
    let _ ← consumeM TokenType.Semicolon "Expect ; after variable declaration."
    pure (Stmt.Var name initializer)

/-- `Parser::statement`. -/
def Parser.statement : Nat → PM Stmt
  | 0 => PM.noFuel
  | n + 1 => do
    if ← mtype TokenType.If then Parser.if_statement n
    else if ← mtype TokenType.For then Parser.for_statement n
    else if ← mtype TokenType.Print then Parser.print_statement n
    else if ← mtype TokenType.While then Parser.while_statement n
    else if ← mtype TokenType.LeftBrace then do
      let l ← Parser.blockDecls n
      pure (Stmt.Block l)
    else Parser.express_statement n

/-- `Parser::for_statement`, desugaring `for` into `Block`/`While`.
Two faithful oddities of the source: the increment clause is parsed under
`if self.check(&TokenType::RightParen)` (not its negation), and the final
`consume` after the clauses expects a `Semicolon` while its message speaks
of a closing parenthesis. -/
def Parser.for_statement : Nat → PM Stmt
  | 0 => PM.noFuel
  | n + 1 => do
    let _ ← consumeM TokenType.LeftParen "Expect ( after for."
    let semi ← mtype TokenType.Semicolon
    let initializer ←
      if semi then pure none
      else do
        let isVar ← mtype TokenType.Var
        if isVar then do
          let d ← Parser.var_declaration n
          pure (some d)
        else do
          let d ← Parser.express_statement n
          pure (some d)
    let condSkip ← checkM TokenType.Semicolon
    let condition ←
      if ¬condSkip then do
        let e ← Parser.expression n
        pure (some e)
      else pure none
    let _ ← consumeM TokenType.Semicolon "Expect ; after loop condition."
    let incChk ← checkM TokenType.RightParen
    let increment ←
      if incChk then do
        let e ← Parser.expression n
        pure (some e)
      else pure none
    let _ ← consumeM TokenType.Semicolon "Expect ) after for clauses."
    let body ← Parser.statement n
    let body1 :=
      match increment with
      | some inc => Stmt.Block [body, Stmt.Expression inc]
      | none => body
    let body2 := Stmt.While (condition.getD (Expr.Literal Literal.True)) body1
    match initializer with
    | some init => pure (Stmt.Block [init, body2])
    | none => pure body2

/-- `Parser::while_statement`.  Faithful oddity: after the condition the
source consumes `LeftParen` again (message speaks of `)`). -/
def Parser.while_statement : Nat → PM Stmt
  | 0 => PM.noFuel
  | n + 1 => do
    let _ ← consumeM TokenType.LeftParen "Expect ( after while."
    let condition ← Parser.expression n
    let _ ← consumeM TokenType.LeftParen "Expect ) after condition."
    let body ← Parser.statement n
    pure (Stmt.While condition body)

/-- `Parser::if_statement`. -/
def Parser.if_statement : Nat → PM Stmt
  | 0 => PM.noFuel
  | n + 1 => do
    let _ ← consumeM TokenType.LeftParen "Expect ( after if."
    let condition ← Parser.expression n
    let _ ← consumeM TokenType.RightParen "Expect ) after if condition."
    let then_branch ← Parser.statement n
    let hasElse ← mtype TokenType.Else
    let else_branch ←
      if hasElse then do
        let e ← Parser.statement n
        pure (some e)
      else pure none
    pure (Stmt.If condition then_branch else_branch)

/-- The declaration loop of `Parser::block`. -/
def Parser.blockLoop : Nat → List Stmt → PM (List Stmt)
  | 0, _ => PM.noFuel
  | n + 1, acc => do
    let stop ← checkM TokenType.RightBrace
    let atEnd ← PM.readP Parser.is_at_end
    if ¬stop ∧ ¬atEnd then do
      let d ← Parser.declaration n
      Parser.blockLoop n (acc ++ [d])
    else pure acc

/-- `Parser::block` (the `"{" declaration* "}"` body). -/
def Parser.blockDecls : Nat → PM (List Stmt)
  | 0 => PM.noFuel
  | n + 1 => do
    let stmts ← Parser.blockLoop n []
    let _ ← consumeM TokenType.RightBrace "Expect \x7d after block."
    pure stmts

/-- `Parser::print_statement`. -/
def Parser.print_statement : Nat → PM Stmt
  | 0 => PM.noFuel
  | n + 1 => do
    let value ← Parser.expression n
    let _ ← consumeM TokenType.Semicolon "Expect ; after value."
    pure (Stmt.Print value)

/-- `Parser::express_statement` (expression statement). -/
def Parser.express_statement : Nat → PM Stmt
  | 0 => PM.noFuel
  | n + 1 => do
    let value ← Parser.expression n
    let _ ← consumeM TokenType.Semicolon "Expect ; after value."
    pure (Stmt.Expression value)

/-- `Parser::expression` (`-> assignment`). -/
def Parser.expression : Nat → PM Expr
  | 0 => PM.noFuel
  | n + 1 => Parser.assignment n

/-- `Parser::assignment`. -/
def Parser.assignment : Nat → PM Expr
  | 0 => PM.noFuel
  | n + 1 => do
    let e ← Parser.logic_or n
    let isEq ← mtype TokenType.Equal
    if isEq then do
      let equals ← previousM
      let value ← Parser.assignment n
      match e with
      | Expr.Variable v => pure (Expr.Assign v value)
      | _ => PM.throwP (PError.InvalidAssignmentTarget equals)
    else pure e

/-- `Parser::logic_or` (`logic_and ( "or" logic_and )*`). -/
def Parser.logic_or : Nat → PM Expr
  | 0 => PM.noFuel
  | n + 1 => fun st =>
    match Parser.logic_and n st with
    | none => none
    | some (Except.error e, st1) => some (Except.error e, st1)
    | some (Except.ok e, st1) => Parser.logicOrLoop n e st1

/-- The fold loop of `logic_or`. -/
def Parser.logicOrLoop : Nat → Expr → PM Expr
  | 0, _ => PM.noFuel
  | n + 1, e => fun st =>
    let (m, st1) := Parser.match_type TokenType.Or st
    if m then
      match Parser.previous st1 with
      | Except.error err => some (Except.error err, st1)
      | Except.ok operator =>
        match Parser.logic_and n st1 with
        | none => none
        | some (Except.error err, st2) => some (Except.error err, st2)
        | some (Except.ok right, st2) =>
          Parser.logicOrLoop n (Expr.Logical e operator right) st2
    else some (Except.ok e, st)

/-- `Parser::logic_and`.  Faithful oddity: the loop guard matches
`TokenType::Or`, not `And`, although the grammar comment in the source
reads `equality ( "and" equality )*`. -/
def Parser.logic_and : Nat → PM Expr
  | 0 => PM.noFuel
  | n + 1 => fun st =>
    match Parser.equality n st with
    | none => none
    | some (Except.error e, st1) => some (Except.error e, st1)
    | some (Except.ok e, st1) => Parser.logicAndLoop n e st1

/-- The fold loop of `logic_and` (guard on `Or`, see `Parser.logic_and`). -/
def Parser.logicAndLoop : Nat → Expr → PM Expr
  | 0, _ => PM.noFuel
  | n + 1, e => fun st =>
    let (m, st1) := Parser.match_type TokenType.Or st
    if m then
      match Parser.previous st1 with
      | Except.error err => some (Except.error err, st1)
      | Except.ok operator =>
        match Parser.equality n st1 with
        | none => none
        | some (Except.error err, st2) => some (Except.error err, st2)
        | some (Except.ok right, st2) =>
          Parser.logicAndLoop n (Expr.Logical e operator right) st2
    else some (Except.ok e, st)

/-- `Parser::comma` (unreachable from `parse`: nothing calls it; kept for
completeness of the embedding). -/
def Parser.comma : Nat → PM Expr
  | 0 => PM.noFuel
  | n + 1 => fun st =>
    match Parser.ternary n st with
    | none => none
    | some (Except.error e, st1) => some (Except.error e, st1)
    | some (Except.ok e, st1) => Parser.commaLoop n e st1

/-- The fold loop of `comma`. -/
def Parser.commaLoop : Nat → Expr → PM Expr
  | 0, _ => PM.noFuel
  | n + 1, e => fun st =>
    let (m, st1) := Parser.match_type TokenType.Comma st
    if m then
      match Parser.previous st1 with
      | Except.error err => some (Except.error err, st1)
      | Except.ok operator =>
        match Parser.ternary n st1 with
        | none => none
        | some (Except.error err, st2) => some (Except.error err, st2)
        | some (Except.ok right, st2) =>
          Parser.commaLoop n (Expr.Binary e operator right) st2
    else some (Except.ok e, st)

/-- `Parser::ternary` (reachable only through `comma`, hence unreachable
from `parse`). -/
def Parser.ternary : Nat → PM Expr
  | 0 => PM.noFuel
  | n + 1 => fun st =>
    match Parser.equality n st with
    | none => none
    | some (Except.error e, st1) => some (Except.error e, st1)
    | some (Except.ok e, st1) => Parser.ternaryLoop n e st1

/-- The fold loop of `ternary`. -/
def Parser.ternaryLoop : Nat → Expr → PM Expr
  | 0, _ => PM.noFuel
  | n + 1, e => fun st =>
    let (m, st1) := Parser.match_types [TokenType.QuestionMark] st
    if m then
      match Parser.equality n st1 with
      | none => none
      | some (Except.error err, st2) => some (Except.error err, st2)
      | some (Except.ok inner_true, st2) =>
        match Parser.consume TokenType.Colon "Expect : after expression" st2 with
        | (Except.error err, st3) => some (Except.error err, st3)
        | (Except.ok _, st3) =>
          match Parser.equality n st3 with
          | none => none
          | some (Except.error err, st4) => some (Except.error err, st4)
          | some (Except.ok inner_false, st4) =>
            Parser.ternaryLoop n (Expr.Condition e inner_true inner_false) st4
    else some (Except.ok e, st)

/-- `Parser::equality` (`comparison ( ( "!=" | "==") comparison )*`). -/
def Parser.equality : Nat → PM Expr
  | 0 => PM.noFuel
  | n + 1 => fun st =>
    match Parser.comparison n st with
    | none => none
    | some (Except.error e, st1) => some (Except.error e, st1)
    | some (Except.ok e, st1) => Parser.equalityLoop n e st1

/-- The fold loop of `equality`. -/
def Parser.equalityLoop : Nat → Expr → PM Expr
  | 0, _ => PM.noFuel
  | n + 1, e => fun st =>
    let (m, st1) :=
      Parser.match_types [TokenType.BangEqual, TokenType.EqualEqual] st
    if m then
      match Parser.previous st1 with
      | Except.error err => some (Except.error err, st1)
      | Except.ok operator =>
        match Parser.comparison n st1 with
        | none => none
        | some (Except.error err, st2) => some (Except.error err, st2)
        | some (Except.ok right, st2) =>
          Parser.equalityLoop n (Expr.Binary e operator right) st2
    else some (Except.ok e, st)

/-- `Parser::comparison` (`term ( ( ">" | ">=" | "<" | "<=") term )*`). -/
def Parser.comparison : Nat → PM Expr
  | 0 => PM.noFuel
  | n + 1 => fun st =>
    match Parser.term n st with
    | none => none
    | some (Except.error e, st1) => some (Except.error e, st1)
    | some (Except.ok e, st1) => Parser.comparisonLoop n e st1

/-- The fold loop of `comparison` (candidate kinds in source order). -/
def Parser.comparisonLoop : Nat → Expr → PM Expr
  | 0, _ => PM.noFuel
  | n + 1, e => fun st =>
    let (m, st1) := Parser.match_types [TokenType.LessEqual, TokenType.Less,
      TokenType.Greater, TokenType.GreaterEqual] st
    if m then
      match Parser.previous st1 with
      | Except.error err => some (Except.error err, st1)
      | Except.ok operator =>
        match Parser.term n st1 with
        | none => none
        | some (Except.error err, st2) => some (Except.error err, st2)
        | some (Except.ok right, st2) =>
          Parser.comparisonLoop n (Expr.Binary e operator right) st2
    else some (Except.ok e, st)

/-- `Parser::term` (`factor ( ( "-" | "+") factor )*`). -/
def Parser.term : Nat → PM Expr
  | 0 => PM.noFuel
  | n + 1 => fun st =>
    match Parser.factor n st with
    | none => none
    | some (Except.error e, st1) => some (Except.error e, st1)
    | some (Except.ok e, st1) => Parser.termLoop n e st1

/-- The fold loop of `term`: while the next token is `-`/`+`, the previous
result becomes the left operand of a new `Binary` node. -/
def Parser.termLoop : Nat → Expr → PM Expr
  | 0, _ => PM.noFuel
  | n + 1, e => fun st =>
    let (m, st1) := Parser.match_types [TokenType.Minus, TokenType.Plus] st
    if m then
      match Parser.previous st1 with
      | Except.error err => some (Except.error err, st1)
      | Except.ok operator =>
        match Parser.factor n st1 with
        | none => none
        | some (Except.error err, st2) => some (Except.error err, st2)
        | some (Except.ok right, st2) =>
          Parser.termLoop n (Expr.Binary e operator right) st2
    else some (Except.ok e, st)

/-- `Parser::factor` (`unary ( ( "/" | "*") unary )*`). -/
def Parser.factor : Nat → PM Expr
  | 0 => PM.noFuel
  | n + 1 => fun st =>
    match Parser.unary n st with
    | none => none
    | some (Except.error e, st1) => some (Except.error e, st1)
    | some (Except.ok e, st1) => Parser.factorLoop n e st1

/-- The fold loop of `factor`. -/
def Parser.factorLoop : Nat → Expr → PM Expr
  | 0, _ => PM.noFuel
  | n + 1, e => fun st =>
    let (m, st1) := Parser.match_types [TokenType.Slash, TokenType.Star] st
    if m then
      match Parser.previous st1 with
      | Except.error err => some (Except.error err, st1)
      | Except.ok operator =>
        match Parser.unary n st1 with
        | none => none
        | some (Except.error err, st2) => some (Except.error err, st2)
        | some (Except.ok right, st2) =>
          Parser.factorLoop n (Expr.Binary e operator right) st2
    else some (Except.ok e, st)

/-- `Parser::unary`.  Faithful oddity of the source: the
`if self.match_types(vec![Bang, Minus])` has an EMPTY body, so a leading
`!`/`-` token is consumed and then dropped, and the function
unconditionally returns the following primary. -/
def Parser.unary : Nat → PM Expr
  | 0 => PM.noFuel
  | n + 1 => do
    let _ ← mtypes [TokenType.Bang, TokenType.Minus]
    Parser.primary n

/-- `Parser::primary`. -/
def Parser.primary : Nat → PM Expr
  | 0 => PM.noFuel
  | n + 1 => do
    if ← mtypes [TokenType.False, TokenType.True, TokenType.Nil] then do
      let lit ← previousM
      pure (Expr.Literal (literalOfTokenType lit.token_type))
    else if ← mtypes [TokenType.Number, TokenType.String] then do
      let token ← previousM
      match token.literal with
      | some l => pure (Expr.Literal l)
      | none => PM.throwP (PError.EmptyLiteral token)
    else if ← mtype TokenType.Identifier then do
      let t ← previousM
      pure (Expr.Variable t)
    else if ← mtypes [TokenType.LeftParen] then do
      let e ← Parser.expression n
      let _ ← consumeM TokenType.RightParen "Expect ) after expression."
      pure (Expr.Grouping e)
    else do
      let t ← peekM
      let cur ← PM.readP (fun st => st.current)
      PM.throwP (PError.UnexpectedToken t cur)

end

/-- The `while !self.is_at_end()` loop of `Parser::parse`: a successful
declaration is appended; a failing one has its error DISCARDED and the
cursor resynchronised, and only a failing `synchronize` aborts parsing. -/
def Parser.parseLoop : Nat → PState → List Stmt →
    Option (Except PError (List Stmt) × PState)
  | 0, _, _ => none
  | n + 1, st, acc =>
    if Parser.is_at_end st then some (Except.ok acc, st)
    else
      match Parser.declaration n st with
      | none => none
      | some (Except.ok stmt, st1) => Parser.parseLoop n st1 (acc ++ [stmt])
      | some (Except.error _, st1) =>
        match Parser.synchronize st1 with
        | (Except.ok _, st2) => Parser.parseLoop n st2 acc
        | (Except.error e, st2) => some (Except.error e, st2)

/-- `Parser::parse` on a fresh parser (`Parser::new`). -/
def Parser.parse (fuel : Nat) (tokens : List Token) :
    Option (Except PError (List Stmt) × PState) :=
  Parser.parseLoop fuel { tokens := tokens, current := 0 } []

/-! ## Runtime values (`interpreter.rs`) -/

/-- Transparent alias for `String` (inside the `Value` namespace the bare
name resolves to the constructor `Value.String`). -/
abbrev StringTy : Type := String

/-- Transparent alias for `Bool` (same reason). -/
abbrev BoolTy : Type := Bool

/-- `Value`: the runtime form produced by evaluation. -/
inductive Value where
  | Number (n : ℚ)
  | String (s : String)
  | Bool (b : Bool)
  | Nil
  deriving DecidableEq

/-- `Value::number`. -/
def Value.number : Value → Option ℚ
  | Value.Number n => some n
  | _ => none

/-- `Value::string`. -/
def Value.string : Value → Option StringTy
  | Value.String s => some s
  | _ => none

/-- `Value::is_true` (Ruby truthiness: `false` and `nil` are falsey). -/
def Value.is_true : Value → BoolTy
  | Value.Number _ => true
  | Value.String _ => true
  | Value.Bool b => b
  | Value.Nil => false

/-- `impl Display for Value`: integral numbers lose the `.0` that the
`{:.1}` pass would add (see the file header for the number conventions). -/
def Value.display : Value → StringTy
  | Value.Number q => ratDisplay q
  | Value.String s => s
  | Value.Bool b => if b then "true" else "false"
  | Value.Nil => "nil"

/-- Rust `{:?}` of a `Value` (used in `InvalidOperation` payloads). -/
def Value.debugFmt : Value → StringTy
  | Value.Number q => "Number(" ++ ratDebug q ++ ")"
  | Value.String s => "String(" ++ rustDebugStr s ++ ")"
  | Value.Bool b => if b then "Bool(true)" else "Bool(false)"
  | Value.Nil => "Nil"

/-- `interpreter::VError`. -/
inductive VError where
  | InvalidOperation (operator : String) (operator_type : String)
      (value_type : String)
  deriving DecidableEq

/-- `impl PartialEq for Value`: structural, cross-type pairs unequal. -/
def Value.eqv : Value → Value → BoolTy
  | Value.Number l, Value.Number r => l = r
  | Value.String l, Value.String r => l = r
  | Value.Bool l, Value.Bool r => l = r
  | Value.Nil, Value.Nil => true
  | _, _ => false

/-- `impl PartialOrd for Value`: numbers compare by value, every other
pairing has no ordering.  (ℚ has no NaN; no theorem below exercises one.) -/
def Value.cmpv (a b : Value) : Option Ordering :=
  match a.number, b.number with
  | some l, some r =>
    some (if l < r then Ordering.lt else if l = r then Ordering.eq
      else Ordering.gt)
  | _, _ => none

/-- `impl Add for Value`: numeric addition, or string concatenation, else
an invalid operation carrying `{:?}` of the LEFT operand. -/
def Value.add (a b : Value) : Except VError Value :=
  match a.number, b.number with
  | some l, some r => Except.ok (Value.Number (l + r))
  | _, _ =>
    match a.string, b.string with
    | some l, some r => Except.ok (Value.String (l ++ r))
    | _, _ =>
      Except.error (VError.InvalidOperation "Binary" "+" a.debugFmt)

/-- `impl Sub for Value`. -/
def Value.sub (a b : Value) : Except VError Value :=
  match a.number, b.number with
  | some l, some r => Except.ok (Value.Number (l - r))
  | _, _ => Except.error (VError.InvalidOperation "Binary" "-" a.debugFmt)

/-- `impl Div for Value` (float division; no zero check, as the source's
TODO notes). -/
def Value.div (a b : Value) : Except VError Value :=
  match a.number, b.number with
  | some l, some r => Except.ok (Value.Number (l / r))
  | _, _ => Except.error (VError.InvalidOperation "Binary" "/" a.debugFmt)

/-- `impl Mul for Value`. -/
def Value.mul (a b : Value) : Except VError Value :=
  match a.number, b.number with
  | some l, some r => Except.ok (Value.Number (l * r))
  | _, _ => Except.error (VError.InvalidOperation "Binary" "*" a.debugFmt)

/-- `impl Not for Value` (never errors). -/
def Value.not : Value → Except VError Value
  | Value.Number _ => Except.ok (Value.Bool false)
  | Value.String _ => Except.ok (Value.Bool false)
  | Value.Bool b => Except.ok (Value.Bool !b)
  | Value.Nil => Except.ok (Value.Bool true)

/-- `impl Neg for Value`.  The error's `value_type` is the source's literal
(unformatted) string `{self:?}`. -/
def Value.neg : Value → Except VError Value
  | Value.Number n => Except.ok (Value.Number (-n))
  | v =>
    match v with
    | _ => Except.error (VError.InvalidOperation "Unary" "-" "\x7bself:?\x7d")

/-- `impl From<&Literal> for Value`. -/
def Value.ofLiteral : Literal → Value
  | Literal.Number n => Value.Number n
  | Literal.String s => Value.String s
  | Literal.True => Value.Bool true
  | Literal.False => Value.Bool false
  | Literal.Nil => Value.Nil

/-! ## Environment (`environment.rs`) -/

/-- `environment::Error`. -/
inductive EnvError where
  | UndefinedVariable (name : String)
  deriving DecidableEq

/-- `Environment`: a `HashMap<String, Value>` (association list model, see
the file header) plus the optional enclosing scope. -/
inductive Environment where
  | mk (values : List (String × Value)) (enclosing : Option Environment)

/-- `HashMap::contains_key`. -/
def hmContains (l : List (String × Value)) (n : String) : Bool :=
  l.any (fun p => p.1 = n)

/-- `HashMap::insert` (replace the value under an existing key, else add). -/
def hmInsert (l : List (String × Value)) (n : String) (v : Value) :
    List (String × Value) :=
  if hmContains l n then l.map (fun p => if p.1 = n then (n, v) else p)
  else l ++ [(n, v)]

/-- `HashMap::get`. -/
def hmGet (l : List (String × Value)) (n : String) : Option Value :=
  (l.find? (fun p => p.1 = n)).map (fun p => p.2)

/-- `Environment::new` (the enclosing environment is cloned into the box). -/
def Environment.new (enclosing : Option Environment) : Environment :=
  Environment.mk [] enclosing

/-- The `values` field. -/
def Environment.values : Environment → List (String × Value)
  | Environment.mk vs _ => vs

/-- The `enclosing` field. -/
def Environment.enclosing : Environment → Option Environment
  | Environment.mk _ enc => enc

/-- `Environment::assign`: mutate the first scope outward that already
binds the name; an unbound name is an `UndefinedVariable` error and nothing
is created anywhere. -/
def Environment.assign : Environment → Token → Value → Except EnvError Environment
  | Environment.mk vs enc, token, value =>
    if hmContains vs token.lexeme then
      Except.ok (Environment.mk (hmInsert vs token.lexeme value) enc)
    else
      match enc with
      | some e =>
        (Environment.assign e token value).map
          (fun e1 => Environment.mk vs (some e1))
      | none => Except.error (EnvError.UndefinedVariable token.lexeme)

/-- `Environment::define`: insert or overwrite in the current scope only. -/
def Environment.define : Environment → String → Value → Environment
  | Environment.mk vs enc, name, value =>
    Environment.mk (hmInsert vs name value) enc

/-- `Environment::get`: search the current scope, then outward.  (The
source's `get().unwrap()` after `contains_key` cannot fail; the model
defaults to `Nil` on that unreachable path.) -/
def Environment.get : Environment → Token → Except EnvError Value
  | Environment.mk vs enc, token =>
    if hmContains vs token.lexeme then
      Except.ok ((hmGet vs token.lexeme).getD Value.Nil)
    else
      match enc with
      | some e => Environment.get e token
      | none => Except.error (EnvError.UndefinedVariable token.lexeme)

/-- Whether a name is bound anywhere in the scope chain (specification
helper, not a source function). -/
def boundInChain : Environment → String → Bool
  | Environment.mk vs enc, n =>
    hmContains vs n ||
      (match enc with
       | some e => boundInChain e n
       | none => false)

/-! ## Interpreter (`interpreter.rs`) -/

/-- `interpreter::IError`. -/
inductive IError where
  | UnaryOpError (source : VError) (token : Token)
  | BinaryOpError (source : VError) (token : Token)
  | EnvironmentError (source : EnvError) (token : Token)
  | UnexpectedError (token : Token)
  deriving DecidableEq

/-- The `Interpreter` struct (one field: the current environment). -/
structure Interp where
  environment : Environment

/-- `Interpreter::new`. -/
def Interp.new : Interp := { environment := Environment.new none }

/-- `visit_expr` of `impl Visitor<Value> for Interpreter`, with
`interpret_literal` / `interpret_grouping` / `interpret_unary` /
`interpret_binary` / `interpret_ternary_condition` inlined at their single
call sites.  One arm is NOT from the source: the source's match has no
`Expr::Logical` arm at all (as written it is non-exhaustive).  That arm is
modelled from the spec (§4.4): both operands are evaluated in order — no
short-circuit — and combined under the truthiness rule; no theorem below
rests on it. -/
def visit_expr : Interp → Expr → Interp × Except IError Value
  | s, Expr.Literal l => (s, Except.ok (Value.ofLiteral l))
  | s, Expr.Grouping e => visit_expr s e
  | s, Expr.Unary token e =>
    match visit_expr s e with
    | (s1, Except.error err) => (s1, Except.error err)
    | (s1, Except.ok right) =>
      match token.token_type with
      | TokenType.Bang =>
        (s1, (Value.not right).mapError (fun e2 => IError.UnaryOpError e2 token))
      | TokenType.Minus =>
        (s1, (Value.neg right).mapError (fun e2 => IError.UnaryOpError e2 token))
      | _ => (s1, Except.error (IError.UnexpectedError token))
  | s, Expr.Binary l token r =>
    match visit_expr s l with
    | (s1, Except.error err) => (s1, Except.error err)
    | (s1, Except.ok left) =>
      match visit_expr s1 r with
      | (s2, Except.error err) => (s2, Except.error err)
      | (s2, Except.ok right) =>
        match token.token_type with
        | TokenType.Minus =>
          (s2, (Value.sub left right).mapError
            (fun e2 => IError.BinaryOpError e2 token))
        | TokenType.Slash =>
          (s2, (Value.div left right).mapError
            (fun e2 => IError.BinaryOpError e2 token))
        | TokenType.Star =>
          (s2, (Value.mul left right).mapError
            (fun e2 => IError.BinaryOpError e2 token))
        | TokenType.Plus =>
          (s2, (Value.add left right).mapError
            (fun e2 => IError.BinaryOpError e2 token))
        | TokenType.Greater =>
          (s2, Except.ok (Value.Bool (Value.cmpv left right = some Ordering.gt)))
        | TokenType.GreaterEqual =>
          (s2, Except.ok (Value.Bool (Value.cmpv left right = some Ordering.gt ∨
            Value.cmpv left right = some Ordering.eq)))
        | TokenType.Less =>
          (s2, Except.ok (Value.Bool (Value.cmpv left right = some Ordering.lt)))
        | TokenType.LessEqual =>
          (s2, Except.ok (Value.Bool (Value.cmpv left right = some Ordering.lt ∨
            Value.cmpv left right = some Ordering.eq)))
        | TokenType.BangEqual =>
          (s2, Except.ok (Value.Bool (!(Value.eqv left right))))
        | TokenType.EqualEqual =>
          (s2, Except.ok (Value.Bool (Value.eqv left right)))
        | _ => (s2, Except.error (IError.UnexpectedError token))
  | s, Expr.Condition condition inner_true inner_false =>
    match visit_expr s condition with
    | (s1, Except.error err) => (s1, Except.error err)
    | (s1, Except.ok c) =>
      if c.is_true then visit_expr s1 inner_true
      else visit_expr s1 inner_false
  | s, Expr.Variable token =>
    (s, (s.environment.get token).mapError
      (fun e2 => IError.EnvironmentError e2 token))
  | s, Expr.Assign name e =>
    match visit_expr s e with
    | (s1, Except.error err) => (s1, Except.error err)
    | (s1, Except.ok value) =>
      match s1.environment.assign name value with
      | Except.ok env1 => ({ environment := env1 }, Except.ok value)
      | Except.error e2 => (s1, Except.error (IError.EnvironmentError e2 name))
  | s, Expr.Logical l operator r =>
    match visit_expr s l with
    | (s1, Except.error err) => (s1, Except.error err)
    | (s1, Except.ok lv) =>
      match visit_expr s1 r with
      | (s2, Except.error err) => (s2, Except.error err)
      | (s2, Except.ok rv) =>
        match operator.token_type with
        | TokenType.And => (s2, Except.ok (Value.Bool (lv.is_true && rv.is_true)))
        | TokenType.Or => (s2, Except.ok (Value.Bool (lv.is_true || rv.is_true)))
        | _ => (s2, Except.error (IError.UnexpectedError operator))

mutual

/-- `visit_stmt` of `impl Visitor<Value> for Interpreter`, returning the
new interpreter state, the lines printed to stdout, and the statement's
result.  Two arms are NOT from the source: the source's match handles only
`Expression`/`Print`/`Var`/`Block` (as written it is non-exhaustive, with
no `If` or `While` arm).  Those two arms are modelled from the spec (§4.4:
"If: evaluate condition; execute the then branch if truthy, else the
optional else branch"; "While: repeatedly evaluate condition and execute
body while truthy"); no theorem below depends on what they do. -/
def visit_stmt : Nat → Interp → Stmt → Option (Interp × List String × Except IError Unit)
  | 0, _, _ => none
  | _ + 1, s, Stmt.Expression e =>
    match visit_expr s e with
    | (s1, Except.error err) => some (s1, [], Except.error err)
    | (s1, Except.ok _) => some (s1, [], Except.ok ())
  | _ + 1, s, Stmt.Print e =>
    match visit_expr s e with
    | (s1, Except.error err) => some (s1, [], Except.error err)
    | (s1, Except.ok v) => some (s1, [Value.display v], Except.ok ())
  | _ + 1, s, Stmt.Var name initializer =>
    match
      (match initializer with
       | none => (s, Except.ok Value.Nil)
       | some e => visit_expr s e) with
    | (s1, Except.error err) => some (s1, [], Except.error err)
    | (s1, Except.ok value) =>
      some ({ environment := s1.environment.define name.lexeme value }, [],
        Except.ok ())
  | n + 1, s, Stmt.Block stmts =>
    execute_block n s stmts (Environment.new (some s.environment))
  | n + 1, s, Stmt.If condition then_branch else_branch =>
    match visit_expr s condition with
    | (s1, Except.error err) => some (s1, [], Except.error err)
    | (s1, Except.ok c) =>
      if c.is_true then visit_stmt n s1 then_branch
      else
        match else_branch with
        | some b => visit_stmt n s1 b
        | none => some (s1, [], Except.ok ())
  | n + 1, s, Stmt.While condition body =>
    match visit_expr s condition with
    | (s1, Except.error err) => some (s1, [], Except.error err)
    | (s1, Except.ok c) =>
      if c.is_true then
        match visit_stmt n s1 body with
        | none => none
        | some (s2, out1, Except.error err) => some (s2, out1, Except.error err)
        | some (s2, out1, Except.ok _) =>
          match visit_stmt n s2 (Stmt.While condition body) with
          | none => none
          | some (s3, out2, r) => some (s3, out1 ++ out2, r)
      else some (s1, [], Except.ok ())

/-- `Interpreter::execute_block`: save the current environment, run the
statements against the supplied child environment, and restore the saved
environment on EVERY exit path (normal completion or first error) before
propagating the result. -/
def execute_block : Nat → Interp → List Stmt → Environment →
    Option (Interp × List String × Except IError Unit)
  | 0, _, _, _ => none
  | n + 1, s, stmts, environment =>
    match execBlockGo n { environment := environment } stmts with
    | none => none
    | some (_, out, r) => some ({ environment := s.environment }, out, r)

/-- The statement loop inside `execute_block` (stop at the first error). -/
def execBlockGo : Nat → Interp → List Stmt →
    Option (Interp × List String × Except IError Unit)
  | 0, _, _ => none
  | _ + 1, s, [] => some (s, [], Except.ok ())
  | n + 1, s, stmt :: rest =>
    match visit_stmt n s stmt with
    | none => none
    | some (s1, out1, Except.error err) => some (s1, out1, Except.error err)
    | some (s1, out1, Except.ok _) =>
      match execBlockGo n s1 rest with
      | none => none
      | some (s2, out2, r) => some (s2, out1 ++ out2, r)

end

/-- `Interpreter::interpret`: execute every top-level statement in order;
a statement's runtime error is reported (collected here, printed to stderr
in the source) and execution continues with the next statement. -/
def interpret : Nat → Interp → List Stmt → Option (Interp × List String × List IError)
  | _, s, [] => some (s, [], [])
  | fuel, s, stmt :: rest =>
    match visit_stmt fuel s stmt with
    | none => none
    | some (s1, out1, r) =>
      match interpret fuel s1 rest with
      | none => none
      | some (s2, out2, errs) =>
        some (s2, out1 ++ out2,
          (match r with
           | Except.error e => [e]
           | Except.ok _ => []) ++ errs)

/-! ## Pipeline helpers (the glue `main.rs::run` provides) -/

/-- Scan a source string to its token list (`none` on scan errors). -/
def scanProgram (src : String) : Option (List Token) :=
  match (Scanner.new src).scan_tokens with
  | (Except.ok t, _) => some t
  | (Except.error _, _) => none

/-- Scan then parse.  Fuel 30 bounds the recursion depth, which is ample
for every concrete source used below (the fuel cost of a parse is the
grammar-level depth of the program, about half this bound here). -/
def parseSource (src : String) : Option (Except PError (List Stmt)) :=
  match scanProgram src with
  | none => none
  | some toks => (Parser.parse 30 toks).map Prod.fst

/-- Scan, parse and interpret from a fresh interpreter; the result is the
stdout lines and the reported runtime errors. -/
def runProgram (src : String) : Option (List String × List IError) :=
  match parseSource src with
  | some (Except.ok stmts) =>
    (interpret 20 Interp.new stmts).map (fun r => (r.2.1, r.2.2))
  | _ => none

/-- Scan a source, parse it with the `expression` production, and evaluate
the resulting tree from a fresh interpreter. -/
def evalExprSource (src : String) : Option (Except IError Value) :=
  match scanProgram src with
  | none => none
  | some toks =>
    match Parser.expression 20 { tokens := toks, current := 0 } with
    | some (Except.ok e, _) => some (visit_expr Interp.new e).2
    | _ => none

/-- Left-spine extension: `LeftSpine e r` says `r` is `e` itself or a
left-nested tower of `Binary` nodes whose innermost left operand is `e` —
the shape a left-folding precedence level produces. -/
inductive LeftSpine (e : Expr) : Expr → Prop
  | refl : LeftSpine e e
  | step {l : Expr} (op : Token) (r : Expr) :
      LeftSpine e l → LeftSpine e (Expr.Binary l op r)

/-- Chain length of an environment (proof measure, not a source function). -/
def Environment.depth : Environment → Nat
  | Environment.mk _ none => 1
  | Environment.mk _ (some e) => 1 + e.depth

/-! ## Concrete fixtures

Token values below are spelled out literally; the scanner theorems tie them
to the source strings they come from, and the parser/interpreter theorems
then run on the literal lists (this keeps each theorem's computation to a
single pipeline stage). -/

/-- A number token (line 1). -/
def numTok (q : ℚ) (lx : String) : Token :=
  { token_type := TokenType.Number, lexeme := lx,
    literal := some (Literal.Number q), line := 1 }

/-- A literal-free token of the given kind (line 1). -/
def opTok (tt : TokenType) (lx : String) : Token :=
  { token_type := tt, lexeme := lx, literal := none, line := 1 }

/-- The `Eof` token `scan_tokens` appends (line 0 in the source). -/
def eofTok : Token :=
  { token_type := TokenType.Eof, lexeme := "", literal := none, line := 0 }

/-- The identifier token `i`. -/
def iTok : Token := opTok TokenType.Identifier "i"

/-- The identifier token `x`. -/
def xTok : Token := opTok TokenType.Identifier "x"

/-- The identifier token `y`. -/
def yTok : Token := opTok TokenType.Identifier "y"

/-- A number literal expression. -/
def litN (q : ℚ) : Expr := Expr.Literal (Literal.Number q)

/-- The C1 source. -/
def forSource : String := "for (var i = 0; i < 3; i = i + 1) print i;"

/-- The token list `scan_tokens` produces for `forSource`. -/
def c1Tokens : List Token :=
  [opTok TokenType.For "for", opTok TokenType.LeftParen "(",
   opTok TokenType.Var "var", iTok, opTok TokenType.Equal "=", numTok 0 "0",
   opTok TokenType.Semicolon ";", iTok, opTok TokenType.Less "<",
   numTok 3 "3", opTok TokenType.Semicolon ";", iTok,
   opTok TokenType.Equal "=", iTok, opTok TokenType.Plus "+", numTok 1 "1",
   opTok TokenType.RightParen ")", opTok TokenType.Print "print", iTok,
   opTok TokenType.Semicolon ";", eofTok]

/-- What `parse` makes of `forSource` (the whole `for` loop is gone). -/
def c1Stmts : List Stmt := [Stmt.Print (Expr.Variable iTok)]

/-- The runtime error executing `print i;` with no `i` in scope. -/
def c1Err : IError := IError.EnvironmentError (EnvError.UndefinedVariable "i") iTok

/-- Minus token. -/
def minusTok : Token := opTok TokenType.Minus "-"

/-- Bang token. -/
def bangTok : Token := opTok TokenType.Bang "!"

/-- Semicolon token. -/
def semiTok : Token := opTok TokenType.Semicolon ";"

/-- `true` keyword token. -/
def trueTok : Token := opTok TokenType.True "true"

/-- `false` keyword token. -/
def falseTok : Token := opTok TokenType.False "false"

/-- `and` keyword token. -/
def andTok : Token := opTok TokenType.And "and"

/-- `or` keyword token. -/
def orTok : Token := opTok TokenType.Or "or"

/-- Tokens of `-1;`. -/
def c2TokensA : List Token := [minusTok, numTok 1 "1", semiTok, eofTok]

/-- Tokens of `!true;`. -/
def c2TokensB : List Token := [bangTok, trueTok, semiTok, eofTok]

/-- The C3 source. -/
def blockSource : String := "var x = 1; \x7b x = 2; \x7d print x;"

/-- What `parse` makes of `blockSource`. -/
def c3Stmts : List Stmt :=
  [Stmt.Var xTok (some (litN 1)),
   Stmt.Block [Stmt.Expression (Expr.Assign xTok (litN 2))],
   Stmt.Print (Expr.Variable xTok)]

/-- The invalid-operation error from `"a" + 1` (the `+` token carries line
2 because the scanner's string bug, see C5, has bumped the line counter
past the first string literal). -/
def c4Err : IError :=
  IError.BinaryOpError
    (VError.InvalidOperation "Binary" "+" "String(\"\\\"a\\\"\")")
    { token_type := TokenType.Plus, lexeme := "+", literal := none, line := 2 }

/-- Scanner state mid `scan_token`, right after the opening quote of
`"a<newline>b"` (start at the quote, cursor past it, line 1). -/
def stStrNl : Scanner :=
  { source := "\"a\nb\"".toList, tokens := [], start := 0, current := 1,
    line := 1, errors := [] }

/-- Same, for `"ab"` (no embedded newline). -/
def stStrAb : Scanner :=
  { source := "\"ab\"".toList, tokens := [], start := 0, current := 1,
    line := 1, errors := [] }

/-- Same, for the unterminated `"a`. -/
def stStrUnterm : Scanner :=
  { source := "\"a".toList, tokens := [], start := 0, current := 1,
    line := 1, errors := [] }

/-- Tokens of `true and false;`. -/
def c6TokensAnd : List Token := [trueTok, andTok, falseTok, semiTok, eofTok]

/-- Tokens of `true or false;`. -/
def c6TokensOr : List Token := [trueTok, orTok, falseTok, semiTok, eofTok]

/-- The C7 source: a declaration that fails, then a healthy statement. -/
def c7Source : String := "var ; print 1;"

/-- Tokens of `c7Source`. -/
def c7Tokens : List Token :=
  [opTok TokenType.Var "var", semiTok, opTok TokenType.Print "print",
   numTok 1 "1", semiTok, eofTok]

/-- Tokens of `var 1` (a failing declaration with no boundary after it). -/
def v1Tokens : List Token :=
  [opTok TokenType.Var "var", numTok 1 "1", eofTok]

/-- Tokens of `1 - 2 - 3`. -/
def c8Tokens : List Token :=
  [numTok 1 "1", minusTok, numTok 2 "2", minusTok, numTok 3 "3", eofTok]

/-- The left-associated tree of `1 - 2 - 3`. -/
def c8Tree : Expr :=
  Expr.Binary (Expr.Binary (litN 1) minusTok (litN 2)) minusTok (litN 3)

/-- The C10 source: a failing assignment, then a healthy print. -/
def c10Source : String := "y = 1; print 1;"

/-- What `parse` makes of `c10Source`. -/
def c10Stmts : List Stmt :=
  [Stmt.Expression (Expr.Assign yTok (litN 1)), Stmt.Print (litN 1)]

/-- The runtime error from `y = 1;` with no `y` in scope. -/
def c10Err : IError := IError.EnvironmentError (EnvError.UndefinedVariable "y") yTok

/-! ## Claim theorems -/

/-- C1: the claim says `for (var i = 0; i < 3; i = i + 1) print i;` parses
(desugaring into Block/While) and executing it prints `0`,`1`,`2`.  On the
code it does not: scanning the source yields `c1Tokens`; `for_statement`
(entered after the `for` keyword) rejects the clauses with a
mismatched-token error, because the increment clause is parsed only when
the NEXT token already is `)` (the guard is inverted) and the closing
`consume` expects a `;` instead of `)`; `parse` then discards the whole
loop during recovery, keeping only `print i;`, and running the program
prints nothing and reports an undefined-variable error for `i`. -/
theorem c1_for_statement_drops_loop :
    scanProgram forSource = some c1Tokens ∧
    (Parser.for_statement 20 { tokens := c1Tokens, current := 1 }).map Prod.fst =
      some (Except.error (PError.MismatchedToken 1 TokenType.Semicolon
        TokenType.Identifier "Expect ) after for clauses.")) ∧
    (Parser.parse 24 c1Tokens).map Prod.fst = some (Except.ok c1Stmts) ∧
    runProgram forSource = some ([], [c1Err]) := by
  refine ⟨rfl, rfl, rfl, ?_⟩
  have h : parseSource forSource = some (Except.ok c1Stmts) := rfl
  unfold runProgram
  rw [h]
  rfl

/-- C2: the claim says a `!` or `-` token followed by a primary parses to
an `Expr::Unary` node with that operator.  On the code it does not: `unary`
consumes the operator token (the `if` body is empty) and returns the bare
primary — `-1` parses to the literal `1` with the cursor past both tokens,
and `!true` parses to the literal `true` likewise. -/
theorem c2_unary_drops_operator :
    Parser.unary 16 { tokens := c2TokensA, current := 0 } =
      some (Except.ok (Expr.Literal (Literal.Number 1)),
        { tokens := c2TokensA, current := 2 }) ∧
    Parser.unary 16 { tokens := c2TokensB, current := 0 } =
      some (Except.ok (Expr.Literal Literal.True),
        { tokens := c2TokensB, current := 2 }) :=
  ⟨rfl, rfl⟩

/-- C4: the claim says `"a" + "b"` evaluates to `String("ab")`.  On the
code it evaluates to `String("\"a\"\"b\"")`: the scanner stores the string
literal INCLUDING its delimiting quotes, so concatenation keeps them.  The
`Add` impl itself is as the claim describes (numbers add, string values
concatenate, anything else is an invalid operation, and `"a" + 1` errors)
— the failure is the scanner's literal extraction. -/
theorem c4_string_plus_keeps_quotes :
    evalExprSource "\"a\" + \"b\"" =
      some (Except.ok (Value.String "\"a\"\"b\"")) ∧
    Value.add (Value.String "a") (Value.String "b") =
      Except.ok (Value.String "ab") ∧
    Value.add (Value.Number 1) (Value.Number 2) =
      Except.ok (Value.Number 3) ∧
    Value.add (Value.String "a") (Value.Number 1) =
      Except.error (VError.InvalidOperation "Binary" "+" "String(\"a\")") ∧
    evalExprSource "\"a\" + 1" = some (Except.error c4Err) := by
  refine ⟨rfl, rfl, ?_, rfl, rfl⟩
  have h : Value.add (Value.Number 1) (Value.Number 2) =
      Except.ok (Value.Number (1 + 2)) := rfl
  rw [h]
  norm_num

/-- C5: the claim says the line counter increases by exactly the number of
newline characters embedded in the string.  On the code it is the exact
opposite: the loop increments the line for every NON-newline character
(`if self.peek() != '\n'`), so scanning `"a<newline>b"` moves the line
counter from 1 to 3 (claimed: 2) and scanning `"ab"` moves it from 1 to 3
(claimed: 1).  The unterminated-string half of the claim does hold:
reaching end of input returns the error instead of a token. -/
theorem c5_string_scan_counts_nonnewlines :
    Scanner.string stStrNl =
      (Except.ok { token_type := TokenType.String,
                   lexeme := "\"a\nb\"",
                   literal := some (Literal.String "\"a\nb\""),
                   line := 3 },
       { stStrNl with current := 5, line := 3 }) ∧
    Scanner.string stStrAb =
      (Except.ok { token_type := TokenType.String,
                   lexeme := "\"ab\"",
                   literal := some (Literal.String "\"ab\""),
                   line := 3 },
       { stStrAb with current := 4, line := 3 }) ∧
    Scanner.string stStrUnterm =
      (Except.error (ScanError.UnterminatedString 2),
       { stStrUnterm with current := 2, line := 2 }) :=
  ⟨rfl, rfl, rfl⟩

/-- C6: the claim says `logic_and` consumes a following `and` token (and
only an `and` token) and folds into a Logical node.  On the code the loop
guard matches `Or`: on `true and false` the production returns after the
first operand with the `and` token unconsumed and no Logical node, while
on `true or false` it happily consumes the `or` and folds. -/
theorem c6_logic_and_matches_or :
    Parser.logic_and 16 { tokens := c6TokensAnd, current := 0 } =
      some (Except.ok (Expr.Literal Literal.True),
        { tokens := c6TokensAnd, current := 1 }) ∧
    Parser.logic_and 16 { tokens := c6TokensOr, current := 0 } =
      some (Except.ok (Expr.Logical (Expr.Literal Literal.True) orTok
        (Expr.Literal Literal.False)),
        { tokens := c6TokensOr, current := 3 }) :=
  ⟨rfl, rfl⟩

/-- C7 counterexample: on `var ; print 1;` the declaration fails with a
mismatched-token error, yet `parse` returns `Ok` with only the recovered
`print 1;` — the syntax error is NOT surfaced as a `ParseError`, refuting
the claim that the overall parse result surfaces recovered errors. -/
theorem c7_parse_swallows_error :
    (Parser.declaration 20 { tokens := c7Tokens, current := 0 }).map Prod.fst =
      some (Except.error (PError.MismatchedToken 1 TokenType.Identifier
        TokenType.Semicolon "Expect variable name.")) ∧
    scanProgram c7Source = some c7Tokens ∧
    parseSource c7Source =
      some (Except.ok [Stmt.Print (Expr.Literal (Literal.Number 1))]) :=
  ⟨rfl, rfl, rfl⟩

/-- C3: after `execute_block` returns, the interpreter's environment is
exactly the environment saved on entry — for every fuel, statement list,
child environment and outcome (`Ok` or error alike).  Consequently an
assignment inside a block to an enclosing variable does not survive the
block: `var x = 1; { x = 2; } print x;` prints `1`. -/
theorem c3_execute_block_restores_environment :
    (∀ (fuel : Nat) (s : Interp) (stmts : List Stmt) (env : Environment)
        (res : Interp × List String × Except IError Unit),
        execute_block fuel s stmts env = some res →
        res.1.environment = s.environment) ∧
    parseSource blockSource = some (Except.ok c3Stmts) ∧
    runProgram blockSource = some (["1"], []) := by
  refine ⟨?_, rfl, ?_⟩
  · intro fuel s stmts env res h
    cases fuel with
    | zero => simp [execute_block] at h
    | succ n =>
      simp only [execute_block] at h
      cases hg : execBlockGo n { environment := env } stmts with
      | none => rw [hg] at h; exact absurd h (by simp)
      | some p =>
        obtain ⟨s0, out, r⟩ := p
        rw [hg] at h
        simp only [Option.some.injEq] at h
        rw [← h]
  · have hp : parseSource blockSource = some (Except.ok c3Stmts) := rfl
    unfold runProgram
    rw [hp]
    rfl

/-- Witness for C3: a concrete block run discharging the hypothesis. -/
theorem c3_execute_block_restores_environment_witness :
    execute_block 3 Interp.new [] (Environment.new none) =
      some ({ environment := Environment.new none }, [], Except.ok ()) ∧
    ({ environment := Environment.new none } : Interp).environment =
      Interp.new.environment :=
  ⟨rfl, c3_execute_block_restores_environment.1 3 Interp.new []
    (Environment.new none)
    ({ environment := Environment.new none }, [], Except.ok ()) rfl⟩

/-- C7 (amended): when a declaration fails to parse and recovery finds a
boundary, the parse loop continues from the resynchronised state with the
declaration's error DISCARDED (so `parse` surfaces no `ParseError` for
recovered errors and returns only the successfully parsed statements);
when recovery finds no boundary, its error aborts the parse. -/
theorem c7_parse_recovery_discards_error :
    (∀ (n : Nat) (st : PState) (acc : List Stmt) (e : PError)
        (st1 st2 : PState),
        Parser.is_at_end st = false →
        Parser.declaration n st = some (Except.error e, st1) →
        Parser.synchronize st1 = (Except.ok (), st2) →
        Parser.parseLoop (n + 1) st acc = Parser.parseLoop n st2 acc) ∧
    (∀ (n : Nat) (st : PState) (acc : List Stmt) (e : PError) (st1 : PState)
        (e2 : PError) (st2 : PState),
        Parser.is_at_end st = false →
        Parser.declaration n st = some (Except.error e, st1) →
        Parser.synchronize st1 = (Except.error e2, st2) →
        Parser.parseLoop (n + 1) st acc = some (Except.error e2, st2)) := by
  constructor
  · intro n st acc e st1 st2 hend hdecl hsync
    simp [Parser.parseLoop, hend, hdecl, hsync]
  · intro n st acc e st1 e2 st2 hend hdecl hsync
    simp [Parser.parseLoop, hend, hdecl, hsync]

/-- Witness for C7: both branches of the amended claim at concrete inputs
(`var ; print 1;` recovers and drops the error; `var 1` has no boundary
and aborts with `SyncBoundaryNotFound`). -/
theorem c7_parse_recovery_discards_error_witness :
    (Parser.is_at_end { tokens := c7Tokens, current := 0 } = false ∧
     Parser.declaration 20 { tokens := c7Tokens, current := 0 } =
       some (Except.error (PError.MismatchedToken 1 TokenType.Identifier
         TokenType.Semicolon "Expect variable name."),
         { tokens := c7Tokens, current := 1 }) ∧
     Parser.synchronize { tokens := c7Tokens, current := 1 } =
       (Except.ok (), { tokens := c7Tokens, current := 2 }) ∧
     Parser.parseLoop 21 { tokens := c7Tokens, current := 0 } [] =
       Parser.parseLoop 20 { tokens := c7Tokens, current := 2 } []) ∧
    (Parser.is_at_end { tokens := v1Tokens, current := 0 } = false ∧
     Parser.declaration 20 { tokens := v1Tokens, current := 0 } =
       some (Except.error (PError.MismatchedToken 1 TokenType.Identifier
         TokenType.Number "Expect variable name."),
         { tokens := v1Tokens, current := 1 }) ∧
     Parser.synchronize { tokens := v1Tokens, current := 1 } =
       (Except.error PError.SyncBoundaryNotFound,
         { tokens := v1Tokens, current := 2 }) ∧
     Parser.parseLoop 21 { tokens := v1Tokens, current := 0 } [] =
       some (Except.error PError.SyncBoundaryNotFound,
         { tokens := v1Tokens, current := 2 })) :=
  ⟨⟨rfl, rfl, rfl,
    c7_parse_recovery_discards_error.1 20 { tokens := c7Tokens, current := 0 }
      [] (PError.MismatchedToken 1 TokenType.Identifier TokenType.Semicolon
        "Expect variable name.") { tokens := c7Tokens, current := 1 }
      { tokens := c7Tokens, current := 2 } rfl rfl rfl⟩,
   ⟨rfl, rfl, rfl,
    c7_parse_recovery_discards_error.2 20 { tokens := v1Tokens, current := 0 }
      [] (PError.MismatchedToken 1 TokenType.Identifier TokenType.Number
        "Expect variable name.") { tokens := v1Tokens, current := 1 }
      PError.SyncBoundaryNotFound { tokens := v1Tokens, current := 2 }
      rfl rfl rfl⟩⟩

/-- Helper for C8: a spine over `Binary l op rt` is also a spine over `l`. -/
theorem leftSpine_widen {l r : Expr} (op : Token) (rt : Expr)
    (h : LeftSpine (Expr.Binary l op rt) r) : LeftSpine l r := by
  induction h with
  | refl => exact LeftSpine.step op rt LeftSpine.refl
  | step op2 r2 _ ih => exact LeftSpine.step op2 r2 ih

/-- C8: `1 - 2 - 3` parses to the left-associated tree
`(- (- 1 2) 3)` (shown both as the tree value and through the
`AstPrinter`), that tree evaluates to `-4`, and in general the `term`
fold loop only ever extends its accumulated expression along the left
spine: the earlier operand becomes the left child of each new `Binary`
node. -/
theorem c8_term_left_assoc :
    (Parser.expression 16 { tokens := c8Tokens, current := 0 }).map Prod.fst =
      some (Except.ok c8Tree) ∧
    astVisitExpr c8Tree = "(- (- 1 2) 3)" ∧
    (visit_expr Interp.new c8Tree).2 = Except.ok (Value.Number (-4)) ∧
    (∀ (n : Nat) (e : Expr) (st : PState) (r : Expr) (st2 : PState),
        Parser.termLoop n e st = some (Except.ok r, st2) → LeftSpine e r) := by
  refine ⟨rfl, rfl, ?_, ?_⟩
  · have h : (visit_expr Interp.new c8Tree).2 =
        Except.ok (Value.Number (1 - 2 - 3)) := rfl
    rw [h]
    norm_num
  · intro n
    induction n with
    | zero =>
      intro e st r st2 h
      simp [Parser.termLoop, PM.noFuel] at h
    | succ n ih =>
      intro e st r st2 h
      simp only [Parser.termLoop] at h
      cases hm : Parser.match_types [TokenType.Minus, TokenType.Plus] st with
      | mk m st1 =>
        rw [hm] at h
        cases m with
        | false =>
          rw [if_neg Bool.false_ne_true] at h
          simp only [Option.some.injEq, Prod.mk.injEq, Except.ok.injEq] at h
          rw [← h.1]
          exact LeftSpine.refl
        | true =>
          rw [if_pos rfl] at h
          cases hp : Parser.previous st1 with
          | error err => rw [hp] at h; simp at h
          | ok op =>
            rw [hp] at h
            cases hf : Parser.factor n st1 with
            | none => rw [hf] at h; exact absurd h (by simp)
            | some q =>
              obtain ⟨fr, st3⟩ := q
              rw [hf] at h
              cases fr with
              | error err => simp at h
              | ok right =>
                simp only at h
                exact leftSpine_widen op right (ih (Expr.Binary e op right) st3 r st2 h)

/-- Witness for C8: the fold loop run on the tokens of `1 - 2 - 3` from
the first operand, discharging the hypothesis of the left-spine part. -/
theorem c8_term_left_assoc_witness :
    Parser.termLoop 10 (litN 1) { tokens := c8Tokens, current := 1 } =
      some (Except.ok c8Tree, { tokens := c8Tokens, current := 5 }) ∧
    LeftSpine (litN 1) c8Tree :=
  ⟨rfl, c8_term_left_assoc.2.2.2 10 (litN 1)
    { tokens := c8Tokens, current := 1 } c8Tree
    { tokens := c8Tokens, current := 5 } rfl⟩

/-- Helper for C9: `assign` on a chain that nowhere binds the name errors,
by induction on the chain depth. -/
theorem assign_unbound_aux :
    ∀ (n : Nat) (env : Environment) (tok : Token) (v : Value),
      env.depth ≤ n → boundInChain env tok.lexeme = false →
      Environment.assign env tok v =
        Except.error (EnvError.UndefinedVariable tok.lexeme) := by
  intro n
  induction n with
  | zero =>
    intro env tok v hd _
    cases env with
    | mk vs enc =>
      cases enc with
      | none => simp [Environment.depth] at hd
      | some e => simp [Environment.depth] at hd
  | succ n ih =>
    intro env tok v hd hb
    cases env with
    | mk vs enc =>
      cases enc with
      | none =>
        simp only [boundInChain, Bool.or_eq_false_iff] at hb
        simp [Environment.assign, hb.1]
      | some e =>
        simp only [boundInChain, Bool.or_eq_false_iff] at hb
        simp only [Environment.assign, hb.1, Bool.false_eq_true, if_false]
        rw [ih e tok v ?_ hb.2]
        · rfl
        · simp only [Environment.depth] at hd
          omega

/-- C9: assigning to a name bound nowhere in the environment chain yields
an undefined-variable error carrying the name, and creates no binding: at
the interpreter level, evaluating `Expr::Assign` of a literal to such a
name returns the error and leaves the interpreter state exactly as it
was. -/
theorem c9_assign_undefined_no_create :
    (∀ (env : Environment) (tok : Token) (v : Value),
        boundInChain env tok.lexeme = false →
        Environment.assign env tok v =
          Except.error (EnvError.UndefinedVariable tok.lexeme)) ∧
    (∀ (s : Interp) (tok : Token) (l : Literal),
        boundInChain s.environment tok.lexeme = false →
        visit_expr s (Expr.Assign tok (Expr.Literal l)) =
          (s, Except.error (IError.EnvironmentError
            (EnvError.UndefinedVariable tok.lexeme) tok))) := by
  have ha : ∀ (env : Environment) (tok : Token) (v : Value),
      boundInChain env tok.lexeme = false →
      Environment.assign env tok v =
        Except.error (EnvError.UndefinedVariable tok.lexeme) :=
    fun env tok v hb => assign_unbound_aux env.depth env tok v le_rfl hb
  refine ⟨ha, ?_⟩
  intro s tok l hb
  simp only [visit_expr]
  rw [ha s.environment tok (Value.ofLiteral l) hb]

/-- Witness for C9: assigning `y = 1` against the empty global scope. -/
theorem c9_assign_undefined_no_create_witness :
    boundInChain (Environment.new none) yTok.lexeme = false ∧
    Environment.assign (Environment.new none) yTok (Value.Number 1) =
      Except.error (EnvError.UndefinedVariable yTok.lexeme) ∧
    visit_expr Interp.new (Expr.Assign yTok (Expr.Literal (Literal.Number 1))) =
      (Interp.new, Except.error (IError.EnvironmentError
        (EnvError.UndefinedVariable yTok.lexeme) yTok)) :=
  ⟨rfl,
   c9_assign_undefined_no_create.1 (Environment.new none) yTok
     (Value.Number 1) rfl,
   c9_assign_undefined_no_create.2 Interp.new yTok (Literal.Number 1) rfl⟩

/-- C10: `interpret` executes the statements in order and never stops at a
failing one: running `xs ++ ys` is running `xs` (whatever errors it
reports) and then `ys` from the resulting state, with outputs and reported
errors concatenated.  Concretely, `y = 1; print 1;` reports the
undefined-variable error from the first statement and still prints `1`
from the second. -/
theorem c10_interpret_continues_after_error :
    (∀ (fuel : Nat) (s : Interp) (xs ys : List Stmt)
        (a b : Interp × List String × List IError),
        interpret fuel s xs = some a →
        interpret fuel a.1 ys = some b →
        interpret fuel s (xs ++ ys) =
          some (b.1, a.2.1 ++ b.2.1, a.2.2 ++ b.2.2)) ∧
    parseSource c10Source = some (Except.ok c10Stmts) ∧
    interpret 20 Interp.new c10Stmts = some (Interp.new, ["1"], [c10Err]) := by
  refine ⟨?_, rfl, rfl⟩
  intro fuel s xs
  induction xs generalizing s with
  | nil =>
    intro ys a b ha hb
    simp only [interpret, Option.some.injEq] at ha
    rw [← ha] at hb ⊢
    simpa using hb
  | cons x xs ih =>
    intro ys a b ha hb
    cases hv : visit_stmt fuel s x with
    | none =>
      simp only [interpret, hv] at ha
      exact Option.noConfusion ha
    | some t =>
      obtain ⟨s1, out1, r⟩ := t
      cases hi : interpret fuel s1 xs with
      | none =>
        simp only [interpret, hv, hi] at ha
        exact Option.noConfusion ha
      | some a0 =>
        obtain ⟨s2, out2, errs2⟩ := a0
        simp only [interpret, hv, hi, Option.some.injEq] at ha
        have hb2 : interpret fuel s2 ys = some b := by
          rw [← ha] at hb
          exact hb
        have hmain := ih s1 ys (s2, out2, errs2) b hi hb2
        simp only [List.cons_append, interpret, hv, List.append_eq]
        rw [hmain, ← ha]
        simp [List.append_assoc]

/-- Witness for C10: the two-statement scenario split at the failing
statement, discharging both hypotheses. -/
theorem c10_interpret_continues_after_error_witness :
    interpret 20 Interp.new [Stmt.Expression (Expr.Assign yTok (litN 1))] =
      some (Interp.new, [], [c10Err]) ∧
    interpret 20 Interp.new [Stmt.Print (litN 1)] =
      some (Interp.new, ["1"], []) ∧
    interpret 20 Interp.new
        ([Stmt.Expression (Expr.Assign yTok (litN 1))] ++ [Stmt.Print (litN 1)]) =
      some (Interp.new, [] ++ ["1"], [c10Err] ++ []) :=
  ⟨rfl, rfl,
   c10_interpret_continues_after_error.1 20 Interp.new
     [Stmt.Expression (Expr.Assign yTok (litN 1))] [Stmt.Print (litN 1)]
     (Interp.new, [], [c10Err]) (Interp.new, ["1"], []) rfl rfl⟩
